import Mathlib

/-!
# Verification of the book CRUD service

A shallow embedding of the persistence-and-API layer of the book
record-management service: the data-access functions in `src/db.rs`
(`all_books`, `book_by_id`, `add_book`, `update_book`, `delete_book`)
and the HTTP handlers in `src/rest.rs` that wrap them, together with
proofs of the listed behavioural properties.

The SQLite store is modelled as the list of persisted rows plus the next
primary key the engine will assign.  SQL statements are translated to
the corresponding pure list operations; the default BINARY collation of
the store is modelled by the lexicographic order on strings.
-/

/-- Represents a book, taken from the books table (`src/db.rs`, struct `Book`):
primary key `id`, `title`, `author`. -/
structure Book where
  id : Int
  title : String
  author : String
  deriving Repr, DecidableEq

/-- The state of the SQLite `books` table.
Modelled from the spec: the migration files are not among the sources; §6
gives the schema `books(id PRIMARY KEY AUTOINCREMENT, title TEXT, author TEXT)`,
so the engine assigns increasing integer keys starting at 1, and `nextId`
records the key the next insert will receive. -/
structure Store where
  nextId : Int
  rows : List Book
  deriving Repr, DecidableEq

/-- The store of a freshly migrated, empty database. -/
def emptyStore : Store := { nextId := 1, rows := [] }

/-- Storage-layer errors, abstracting the `sqlx::Error` values the gateway
can surface: `RowNotFound` from `fetch_one` on an empty result set, a
connectivity failure, or any other query failure. -/
inductive DbError where
  | rowNotFound
  | connectionFailed
  | queryFailed
  deriving Repr, DecidableEq

/-- The HTTP status codes the REST layer (`src/rest.rs`) can produce. -/
inductive StatusCode where
  | ok
  | badRequest
  | notFound
  | unprocessableEntity
  | serviceUnavailable
  deriving Repr, DecidableEq

/-- The `(title, author)` projection of a row, the sort key of
`SELECT * FROM books ORDER BY title,author`. -/
def proj (b : Book) : String × String := (b.title, b.author)

/-- Lexicographic comparison of `(title, author)` pairs: the order SQLite's
`ORDER BY title,author` sorts by under the default BINARY collation. -/
def pairLE (a b : String × String) : Prop :=
  a.1 < b.1 ∨ (a.1 = b.1 ∧ a.2 ≤ b.2)

/-- Row comparison used by `all_books`: by title, ties broken by author. -/
def bookLE (a b : Book) : Prop := pairLE (proj a) (proj b)

instance : DecidableRel pairLE := fun a b => by
  unfold pairLE
  exact inferInstance

instance : DecidableRel bookLE := fun a b => by
  unfold bookLE
  exact inferInstance

instance : IsTrans (String × String) pairLE := by
  constructor
  rintro a b c (h₁ | ⟨h₁, h₁'⟩) (h₂ | ⟨h₂, h₂'⟩)
  · exact Or.inl (lt_trans h₁ h₂)
  · exact Or.inl (h₂ ▸ h₁)
  · exact Or.inl (h₁ ▸ h₂)
  · exact Or.inr ⟨h₁.trans h₂, le_trans h₁' h₂'⟩

instance : IsAntisymm (String × String) pairLE := by
  constructor
  rintro a b (h₁ | ⟨h₁, h₁'⟩) (h₂ | ⟨h₂, h₂'⟩)
  · exact absurd h₂ (lt_asymm h₁)
  · exact absurd h₂ (ne_of_gt h₁)
  · exact absurd h₂ (not_lt_of_ge (le_of_eq h₁))
  · exact Prod.ext h₁ (le_antisymm h₁' h₂')

instance : IsTotal (String × String) pairLE := by
  constructor
  intro a b
  rcases lt_trichotomy a.1 b.1 with h | h | h
  · exact Or.inl (Or.inl h)
  · rcases le_total a.2 b.2 with h' | h'
    · exact Or.inl (Or.inr ⟨h, h'⟩)
    · exact Or.inr (Or.inr ⟨h.symm, h'⟩)
  · exact Or.inr (Or.inl h)

instance : IsTrans Book bookLE :=
  ⟨fun _ _ _ h₁ h₂ => Trans.trans (r := pairLE) h₁ h₂⟩

instance : IsTotal Book bookLE :=
  ⟨fun a b => IsTotal.total (r := pairLE) (proj a) (proj b)⟩

namespace Db

/-- Model of `all_books` (`src/db.rs`): `SELECT * FROM books ORDER BY title,author`.
Returns every row, sorted by title then author. -/
def all_books (st : Store) : List Book :=
  List.insertionSort bookLE st.rows

/-- Model of `book_by_id` (`src/db.rs`): `SELECT * FROM books WHERE id=$1` with
`fetch_one`, which surfaces `RowNotFound` when no row matches. -/
def book_by_id (st : Store) (id : Int) : Except DbError Book :=
  match st.rows.find? (fun b => b.id == id) with
  | some b => Except.ok b
  | none => Except.error DbError.rowNotFound

/-- Model of `add_book` (`src/db.rs`):
`INSERT INTO books (title, author) VALUES ($1, $2) RETURNING id`.
The engine assigns the next key; the new row is appended and the key
returned. -/
def add_book (st : Store) (title author : String) : Int × Store :=
  (st.nextId,
   { nextId := st.nextId + 1,
     rows := st.rows ++ [{ id := st.nextId, title := title, author := author }] })

/-- The per-row effect of `UPDATE books SET title=$1, author=$2 WHERE id=$3`. -/
def updRow (book r : Book) : Book :=
  if r.id == book.id then { id := r.id, title := book.title, author := book.author } else r

/-- Model of `update_book` (`src/db.rs`): overwrites title/author of every row whose
id matches `book.id`; affecting zero rows is not an error. -/
def update_book (st : Store) (book : Book) : Store :=
  { st with rows := st.rows.map (updRow book) }

/-- Model of `delete_book` (`src/db.rs`): `DELETE FROM books WHERE id=$1`; affecting
zero rows is not an error. -/
def delete_book (st : Store) (id : Int) : Store :=
  { st with rows := st.rows.filter (fun r => r.id != id) }

end Db

namespace Rest

/-- Model of `get_all_books` (`src/rest.rs`): 200 with the JSON list on success;
the pure model has no connectivity failure, so it always succeeds. -/
def get_all_books (st : Store) : Except StatusCode (List Book) :=
  Except.ok (Db.all_books st)

/-- Model of `get_book` (`src/rest.rs`): `if let Ok(book) ... else SERVICE_UNAVAILABLE`;
every storage error, not-found included, becomes 503. -/
def get_book (st : Store) (id : Int) : Except StatusCode Book :=
  match Db.book_by_id st id with
  | Except.ok b => Except.ok b
  | Except.error _ => Except.error StatusCode.serviceUnavailable

/-- Model of `add_book` (`src/rest.rs`): passes only `book.title` and `book.author`
to the storage layer (the decoded `id` is ignored) and returns the new key
as JSON; no validation is performed. -/
def add_book (st : Store) (book : Book) : Except StatusCode Int × Store :=
  let r := Db.add_book st book.title book.author
  (Except.ok r.1, r.2)

/-- Model of `update_book` (`src/rest.rs`): delegates to the storage layer and
returns 200 on success; no validation is performed. -/
def update_book (st : Store) (book : Book) : StatusCode × Store :=
  (StatusCode.ok, Db.update_book st book)

/-- Model of `delete_book` (`src/rest.rs`): delegates to the storage layer and
returns 200 on success. -/
def delete_book (st : Store) (id : Int) : StatusCode × Store :=
  (StatusCode.ok, Db.delete_book st id)

end Rest

/-- A fold of `create` calls: the store after performing the given
`(title, author)` insertions in order. -/
def createAll (ops : List (String × String)) (st : Store) : Store :=
  ops.foldl (fun s p => (Db.add_book s p.1 p.2).2) st

/-- Well-formedness of a store state, maintained by every operation:
persisted ids are distinct, positive, and below the next key. -/
def WF (st : Store) : Prop :=
  (st.rows.map Book.id).Nodup ∧ (∀ b ∈ st.rows, 0 < b.id ∧ b.id < st.nextId) ∧
    1 ≤ st.nextId

/-- Modelled from the spec: the Record Service validation layer does not
exist in the sources (§4.2 notes the reference implementation omits it);
this is its "empty after trimming whitespace" test on a field value. -/
def trimmedEmpty (s : String) : Bool :=
  s.data.all Char.isWhitespace

/-- A JSON value, as received in a request body. -/
inductive JsonValue where
  | null
  | bool (b : Bool)
  | num (n : Int)
  | str (s : String)
  | arr (elems : List JsonValue)
  | obj (fields : List (String × JsonValue))

/-- First occurrence of a field in a JSON object's field list. -/
def getField (fields : List (String × JsonValue)) (k : String) : Option JsonValue :=
  (fields.find? (fun f => f.1 == k)).map (fun f => f.2)

/-- Reads a JSON value as an integer, as serde does for an `i32` field. -/
def asInt : JsonValue → Option Int
  | JsonValue.num n => some n
  | _ => none

/-- Reads a JSON value as a string, as serde does for a `String` field. -/
def asStr : JsonValue → Option String
  | JsonValue.str s => some s
  | _ => none

/-- The serde-derived decoder for `Book` (`#[derive(Deserialize)]` in
`src/db.rs`): the body must be a JSON object carrying an integer `id`, a
string `title` and a string `author`; other fields are ignored; a missing
or ill-typed required field is a decode error. -/
def decodeBook : JsonValue → Option Book
  | JsonValue.obj fields => do
      let i ← getField fields "id" >>= asInt
      let t ← getField fields "title" >>= asStr
      let a ← getField fields "author" >>= asStr
      pure { id := i, title := t, author := a }
  | _ => none

/-- The POST `/books/add` route including body decoding: axum's
`Json<Book>` extractor rejects a body that fails to deserialize before
the handler body (and hence any storage call) runs. -/
def add_book_route (st : Store) (body : JsonValue) : Except StatusCode Int × Store :=
  match decodeBook body with
  | some book => Rest.add_book st book
  | none => (Except.error StatusCode.unprocessableEntity, st)

/-! ## Helper lemmas -/

theorem createAll_rows_proj (ops : List (String × String)) (st : Store) :
    (createAll ops st).rows.map proj = st.rows.map proj ++ ops := by
  induction ops generalizing st with
  | nil => simp [createAll]
  | cons p ops ih =>
      have h := ih (Db.add_book st p.1 p.2).2
      simp only [createAll, List.foldl_cons] at h ⊢
      rw [h]
      simp [Db.add_book, proj]

theorem sorted_proj_of_sorted {l : List Book} (h : List.Sorted bookLE l) :
    List.Sorted pairLE (l.map proj) :=
  List.Pairwise.map proj (fun _ _ hab => hab) h

/-! ## C1: listAll ordering and completeness -/

/-- C1: `listAll` returns every persisted book sorted by title ascending
with ties broken by author ascending (case-sensitive); on an empty store
it returns the empty sequence; and for all sequences of create operations
the result is exactly the created books in `(title, author)` ascending
order, regardless of creation order. -/
theorem listAll_sorted_complete (st : Store) (ops ops2 : List (String × String))
    (h : ops.Perm ops2) :
    List.Sorted bookLE (Db.all_books st) ∧
    (Db.all_books st).Perm st.rows ∧
    Db.all_books emptyStore = [] ∧
    ((Db.all_books (createAll ops emptyStore)).map proj).Perm ops ∧
    (Db.all_books (createAll ops emptyStore)).map proj =
      (Db.all_books (createAll ops2 emptyStore)).map proj := by
  have perm1 : ((Db.all_books (createAll ops emptyStore)).map proj).Perm ops := by
    have hp : (Db.all_books (createAll ops emptyStore)).Perm
        (createAll ops emptyStore).rows := List.perm_insertionSort bookLE _
    have := hp.map proj
    rwa [createAll_rows_proj ops emptyStore] at this
  refine ⟨List.sorted_insertionSort bookLE st.rows,
    List.perm_insertionSort bookLE st.rows, rfl, perm1, ?_⟩
  have perm2 : ((Db.all_books (createAll ops2 emptyStore)).map proj).Perm ops2 := by
    have hp : (Db.all_books (createAll ops2 emptyStore)).Perm
        (createAll ops2 emptyStore).rows := List.perm_insertionSort bookLE _
    have := hp.map proj
    rwa [createAll_rows_proj ops2 emptyStore] at this
  have hperm : ((Db.all_books (createAll ops emptyStore)).map proj).Perm
      ((Db.all_books (createAll ops2 emptyStore)).map proj) :=
    (perm1.trans h).trans perm2.symm
  exact List.eq_of_perm_of_sorted hperm
    (sorted_proj_of_sorted (List.sorted_insertionSort bookLE _))
    (sorted_proj_of_sorted (List.sorted_insertionSort bookLE _))

/-- Witness for C1 at a concrete pair of permuted create sequences. -/
theorem listAll_sorted_complete_witness :
    List.Sorted bookLE (Db.all_books emptyStore) ∧
    (Db.all_books emptyStore).Perm emptyStore.rows ∧
    Db.all_books emptyStore = [] ∧
    ((Db.all_books (createAll [("b", "y"), ("a", "x")] emptyStore)).map proj).Perm
      [("b", "y"), ("a", "x")] ∧
    (Db.all_books (createAll [("b", "y"), ("a", "x")] emptyStore)).map proj =
      (Db.all_books (createAll [("a", "x"), ("b", "y")] emptyStore)).map proj :=
  listAll_sorted_complete emptyStore [("b", "y"), ("a", "x")]
    [("a", "x"), ("b", "y")] (List.Perm.swap _ _ _)

/-! ## C2: create followed by getById -/

theorem find_append_skip (l l2 : List Book) (i : Int)
    (h : ∀ b ∈ l, b.id ≠ i) :
    (l ++ l2).find? (fun b => b.id == i) = l2.find? (fun b => b.id == i) := by
  induction l with
  | nil => rfl
  | cons b l ih =>
      have hb : (b.id == i) = false := by
        simpa using h b (List.mem_cons_self b l)
      simp only [List.cons_append, List.find?_cons, hb]
      exact ih (fun b2 hb2 => h b2 (List.mem_cons_of_mem b hb2))

/-- C2: on a well-formed store, `create(t, a)` followed by `getById` on the
returned id yields a book with exactly that title and author, and the id is
a positive integer equal to the one `create` returned. -/
theorem create_get_roundtrip (st : Store) (t a : String) (h : WF st) :
    Db.book_by_id (Db.add_book st t a).2 (Db.add_book st t a).1 =
      Except.ok { id := (Db.add_book st t a).1, title := t, author := a } ∧
    0 < (Db.add_book st t a).1 := by
  obtain ⟨-, hbound, hpos⟩ := h
  constructor
  · show Db.book_by_id
      { nextId := st.nextId + 1,
        rows := st.rows ++ [{ id := st.nextId, title := t, author := a }] }
      st.nextId = _
    unfold Db.book_by_id
    rw [find_append_skip st.rows _ st.nextId
      (fun b hb => ne_of_lt (hbound b hb).2)]
    simp [Db.add_book]
  · exact lt_of_lt_of_le Int.zero_lt_one hpos

/-- Witness for C2: creating in an empty store and reading the book back. -/
theorem create_get_roundtrip_witness :
    Db.book_by_id (Db.add_book emptyStore "t" "a").2 (Db.add_book emptyStore "t" "a").1 =
      Except.ok { id := (Db.add_book emptyStore "t" "a").1, title := "t", author := "a" } ∧
    0 < (Db.add_book emptyStore "t" "a").1 :=
  create_get_roundtrip emptyStore "t" "a"
    ⟨List.nodup_nil, fun b hb => absurd hb (List.not_mem_nil b), le_refl 1⟩

/-! ## C3: not-found handling of getById and GET /books/:id -/

theorem book_by_id_notfound (st : Store) (i : Int)
    (h : ∀ b ∈ st.rows, b.id ≠ i) :
    Db.book_by_id st i = Except.error DbError.rowNotFound := by
  unfold Db.book_by_id
  have hf : st.rows.find? (fun b => b.id == i) = none := by
    rw [List.find?_eq_none]
    intro b hb
    simpa using h b hb
  rw [hf]

/-- Counterexample to C3 as stated: id 1 matches no book in the empty
store, yet GET `/books/1` answers 503 (SERVICE_UNAVAILABLE), not 404. -/
theorem get_book_notfound_cex :
    Db.book_by_id emptyStore 1 = Except.error DbError.rowNotFound ∧
    Rest.get_book emptyStore 1 = Except.error StatusCode.serviceUnavailable ∧
    StatusCode.serviceUnavailable ≠ StatusCode.notFound :=
  ⟨rfl, rfl, by decide⟩

/-- C3 amended: for every id matching no persisted book, `book_by_id`
fails with `RowNotFound` — an error value distinct from a connectivity
failure — but the HTTP surface maps this outcome of GET `/books/:id` to
503 like every other storage error, not to 404. -/
theorem get_book_notfound_503 (st : Store) (i : Int)
    (h : ∀ b ∈ st.rows, b.id ≠ i) :
    Db.book_by_id st i = Except.error DbError.rowNotFound ∧
    DbError.rowNotFound ≠ DbError.connectionFailed ∧
    Rest.get_book st i = Except.error StatusCode.serviceUnavailable := by
  have hb := book_by_id_notfound st i h
  refine ⟨hb, by decide, ?_⟩
  unfold Rest.get_book
  rw [hb]

/-- Witness for the amended C3 at the empty store. -/
theorem get_book_notfound_503_witness :
    Db.book_by_id emptyStore 2 = Except.error DbError.rowNotFound ∧
    DbError.rowNotFound ≠ DbError.connectionFailed ∧
    Rest.get_book emptyStore 2 = Except.error StatusCode.serviceUnavailable :=
  get_book_notfound_503 emptyStore 2 (fun b hb => absurd hb (List.not_mem_nil b))

/-! ## C4: validation of create/update input -/

/-- Counterexample to C4 as stated: a create request whose title is empty
(and hence empty after trimming) is not answered with 400; the row is
inserted and the store changes. -/
theorem add_book_empty_title_cex :
    trimmedEmpty "" = true ∧
    Rest.add_book emptyStore { id := 7, title := "", author := "a" } =
      (Except.ok 1,
       { nextId := 2, rows := [{ id := 1, title := "", author := "a" }] }) ∧
    (Rest.add_book emptyStore { id := 7, title := "", author := "a" }).1 ≠
      Except.error StatusCode.badRequest ∧
    (Rest.add_book emptyStore { id := 7, title := "", author := "a" }).2 ≠
      emptyStore := by
  refine ⟨rfl, rfl, ?_, ?_⟩
  · intro hc
    exact Except.noConfusion hc
  · intro hc
    simpa [Rest.add_book, Db.add_book, emptyStore] using congrArg Store.rows hc

/-- C4 amended: the code performs no input validation at all. Even when
title or author is empty after trimming, the create and update handlers
delegate to the storage layer unchanged, never answer 400, and the store
is modified exactly as the storage operation prescribes. -/
theorem add_update_no_validation (st : Store) (b : Book)
    (_h : trimmedEmpty b.title = true ∨ trimmedEmpty b.author = true) :
    Rest.add_book st b = (Except.ok st.nextId, (Db.add_book st b.title b.author).2) ∧
    (Rest.add_book st b).1 ≠ Except.error StatusCode.badRequest ∧
    Rest.update_book st b = (StatusCode.ok, Db.update_book st b) ∧
    (Rest.update_book st b).1 ≠ StatusCode.badRequest := by
  refine ⟨rfl, ?_, rfl, ?_⟩
  · intro hc
    exact Except.noConfusion hc
  · intro hc
    exact StatusCode.noConfusion hc

/-- Witness for the amended C4 at a concrete empty-title request. -/
theorem add_update_no_validation_witness :
    Rest.add_book emptyStore { id := 7, title := "", author := "a" } =
      (Except.ok emptyStore.nextId,
       (Db.add_book emptyStore "" "a").2) ∧
    (Rest.add_book emptyStore { id := 7, title := "", author := "a" }).1 ≠
      Except.error StatusCode.badRequest ∧
    Rest.update_book emptyStore { id := 7, title := "", author := "a" } =
      (StatusCode.ok, Db.update_book emptyStore { id := 7, title := "", author := "a" }) ∧
    (Rest.update_book emptyStore { id := 7, title := "", author := "a" }).1 ≠
      StatusCode.badRequest :=
  add_update_no_validation emptyStore { id := 7, title := "", author := "a" }
    (Or.inl (by decide))

/-! ## C5: update touches only the targeted row -/

theorem updRow_skip (b r : Book) (h : r.id ≠ b.id) : Db.updRow b r = r := by
  unfold Db.updRow
  simp [h]

theorem filter_map_updRow (l : List Book) (X : Book) :
    (l.map (Db.updRow X)).filter (fun r => r.id != X.id) =
      l.filter (fun r => r.id != X.id) := by
  induction l with
  | nil => rfl
  | cons r l ih =>
      by_cases hid : r.id = X.id
      · have h1 : Db.updRow X r = { id := r.id, title := X.title, author := X.author } := by
          unfold Db.updRow
          simp [hid]
        simp only [List.map_cons, List.filter_cons, h1]
        simp [hid, ih]
      · simp only [List.map_cons, List.filter_cons, updRow_skip X r hid]
        simp [hid, ih]

/-- C5: `update(X)` changes only the row whose id is `X.id`: the sequence
of rows with any other id — every field of every such row included — is
exactly the same before and after, and no row appears or disappears. -/
theorem update_frame (st : Store) (X : Book) :
    (Db.update_book st X).rows.filter (fun r => r.id != X.id) =
      st.rows.filter (fun r => r.id != X.id) ∧
    (Db.update_book st X).rows.length = st.rows.length := by
  constructor
  · exact filter_map_updRow st.rows X
  · simp [Db.update_book]

/-! ## C6: update of a missing id is a silent no-op -/

/-- C6: when no persisted row has the id of the book being updated,
`update` succeeds (the handler answers 200) and the store is unchanged. -/
theorem update_missing_noop (st : Store) (b : Book)
    (h : ∀ r ∈ st.rows, r.id ≠ b.id) :
    Rest.update_book st b = (StatusCode.ok, st) := by
  unfold Rest.update_book Db.update_book
  have hrows : st.rows.map (Db.updRow b) = st.rows := by
    rw [List.map_congr_left (fun r hr => updRow_skip b r (h r hr))]
    exact List.map_id st.rows
  rw [hrows]

/-- Witness for C6: updating a book that was never created. -/
theorem update_missing_noop_witness :
    Rest.update_book emptyStore { id := 5, title := "t", author := "a" } =
      (StatusCode.ok, emptyStore) :=
  update_missing_noop emptyStore { id := 5, title := "t", author := "a" }
    (fun r hr => absurd hr (List.not_mem_nil r))

/-! ## C7: delete removes exactly the targeted id and is idempotent -/

/-- C7: `delete(id)` removes from subsequent `listAll` results exactly the
books carrying that id — every other book stays listed — the handler
answers 200, and deleting the same id a second time leaves the store
exactly as after the first deletion. -/
theorem delete_removes_exactly (st : Store) (i : Int) :
    (∀ b, b ∈ Db.all_books (Db.delete_book st i) ↔
      (b ∈ Db.all_books st ∧ b.id ≠ i)) ∧
    Db.delete_book (Db.delete_book st i) i = Db.delete_book st i ∧
    (Rest.delete_book (Db.delete_book st i) i).1 = StatusCode.ok := by
  refine ⟨?_, ?_, rfl⟩
  · intro b
    unfold Db.all_books Db.delete_book
    simp only [List.mem_insertionSort]
    constructor
    · intro hb
      have := List.mem_filter.mp hb
      exact ⟨this.1, by simpa using this.2⟩
    · intro hb
      exact List.mem_filter.mpr ⟨hb.1, by simpa using hb.2⟩
  · unfold Db.delete_book
    simp [List.filter_filter]

/-! ## C8: ids are unique, store-assigned, and immutable -/

theorem update_ids_eq (st : Store) (b : Book) :
    (Db.update_book st b).rows.map Book.id = st.rows.map Book.id := by
  unfold Db.update_book
  simp only [List.map_map]
  refine List.map_congr_left (fun r _ => ?_)
  unfold Db.updRow
  by_cases hid : r.id = b.id <;> simp [hid]

theorem delete_ids_eq (st : Store) (i : Int) :
    (Db.delete_book st i).rows.map Book.id =
      (st.rows.map Book.id).filter (fun x => x != i) := by
  unfold Db.delete_book
  induction st.rows with
  | nil => rfl
  | cons r l ih =>
      by_cases hid : r.id = i <;> simp [List.filter_cons, hid, ih]

theorem updRow_id (b r : Book) : (Db.updRow b r).id = r.id := by
  unfold Db.updRow
  by_cases h : r.id = b.id <;> simp [h]

/-- C8: every operation preserves the invariant that persisted ids are
unique (and positive, below the engine's next key): `create` assigns a
fresh id no existing row carries and ignores any id supplied in the
request, `update` leaves the sequence of ids untouched, and `delete`
leaves the surviving rows' ids exactly the non-deleted ids. -/
theorem ids_unique_immutable (st : Store) (t a : String) (b : Book) (i : Int)
    (h : WF st) :
    WF (Db.add_book st t a).2 ∧
    (∀ r ∈ st.rows, r.id ≠ (Db.add_book st t a).1) ∧
    (∀ b2 : Book, b2.title = b.title → b2.author = b.author →
        Rest.add_book st b2 = Rest.add_book st b) ∧
    WF (Db.update_book st b) ∧
    (Db.update_book st b).rows.map Book.id = st.rows.map Book.id ∧
    WF (Db.delete_book st i) ∧
    (Db.delete_book st i).rows.map Book.id =
      (st.rows.map Book.id).filter (fun x => x != i) := by
  obtain ⟨hnd, hbound, hpos⟩ := h
  have hfresh : ∀ r ∈ st.rows, r.id ≠ st.nextId :=
    fun r hr => ne_of_lt (hbound r hr).2
  refine ⟨?_, hfresh, ?_, ?_, update_ids_eq st b, ?_, delete_ids_eq st i⟩
  · refine ⟨?_, ?_, ?_⟩
    · have hids : ((Db.add_book st t a).2).rows.map Book.id =
          st.rows.map Book.id ++ [st.nextId] := by
        simp [Db.add_book]
      rw [hids]
      refine List.Nodup.append hnd (List.nodup_singleton _) ?_
      intro x hx hx'
      obtain ⟨r, hr, hrid⟩ := List.mem_map.mp hx
      simp only [List.mem_singleton] at hx'
      exact hfresh r hr (hrid.symm ▸ hx')
    · intro b2 hb2
      simp only [Db.add_book, List.mem_append, List.mem_singleton] at hb2
      rcases hb2 with hb2 | hb2
      · have := hbound b2 hb2
        refine ⟨this.1, ?_⟩
        show b2.id < st.nextId + 1
        omega
      · subst hb2
        constructor
        · show (0 : Int) < st.nextId
          omega
        · show st.nextId < st.nextId + 1
          omega
    · show (1 : Int) ≤ st.nextId + 1
      omega
  · intro b2 ht ha
    unfold Rest.add_book
    rw [ht, ha]
  · refine ⟨?_, ?_, hpos⟩
    · rw [update_ids_eq st b]
      exact hnd
    · intro b2 hb2
      obtain ⟨r, hr, hrr⟩ := List.mem_map.mp hb2
      have := hbound r hr
      have hid : b2.id = r.id := hrr ▸ updRow_id b r
      exact ⟨hid ▸ this.1, hid ▸ this.2⟩
  · refine ⟨?_, ?_, hpos⟩
    · rw [delete_ids_eq st i]
      exact hnd.filter _
    · intro b2 hb2
      exact hbound b2 (List.mem_of_mem_filter hb2)

/-- Witness for C8 on a concrete well-formed one-row store. -/
theorem ids_unique_immutable_witness :
    WF (Db.add_book { nextId := 2, rows := [{ id := 1, title := "t", author := "a" }] } "u" "v").2 ∧
    (∀ r ∈ ({ nextId := 2, rows := [{ id := 1, title := "t", author := "a" }] } : Store).rows,
        r.id ≠ (Db.add_book { nextId := 2, rows := [{ id := 1, title := "t", author := "a" }] } "u" "v").1) ∧
    (∀ b2 : Book, b2.title = "x" → b2.author = "y" →
        Rest.add_book { nextId := 2, rows := [{ id := 1, title := "t", author := "a" }] } b2 =
          Rest.add_book { nextId := 2, rows := [{ id := 1, title := "t", author := "a" }] }
            { id := 9, title := "x", author := "y" }) ∧
    WF (Db.update_book { nextId := 2, rows := [{ id := 1, title := "t", author := "a" }] }
        { id := 9, title := "x", author := "y" }) ∧
    (Db.update_book { nextId := 2, rows := [{ id := 1, title := "t", author := "a" }] }
        { id := 9, title := "x", author := "y" }).rows.map Book.id =
      ({ nextId := 2, rows := [{ id := 1, title := "t", author := "a" }] } : Store).rows.map Book.id ∧
    WF (Db.delete_book { nextId := 2, rows := [{ id := 1, title := "t", author := "a" }] } 1) ∧
    (Db.delete_book { nextId := 2, rows := [{ id := 1, title := "t", author := "a" }] } 1).rows.map Book.id =
      (({ nextId := 2, rows := [{ id := 1, title := "t", author := "a" }] } : Store).rows.map Book.id).filter
        (fun x => x != 1) :=
  ids_unique_immutable { nextId := 2, rows := [{ id := 1, title := "t", author := "a" }] }
    "u" "v" { id := 9, title := "x", author := "y" } 1
    ⟨by decide, by decide, by decide⟩

/-! ## C9: empty strings are legal at the storage layer -/

/-- C9: for every title and author — the empty string included, since the
schema places no constraint on the TEXT columns — `create` completes
successfully, returns the next key, and appends exactly the new row. -/
theorem create_accepts_any_strings (st : Store) (t a : String) :
    (Rest.add_book st { id := 0, title := t, author := a }).1 =
      Except.ok st.nextId ∧
    ((Db.add_book st t a).2).rows =
      st.rows ++ [{ id := st.nextId, title := t, author := a }] ∧
    ((Db.add_book st "" "").2).rows =
      st.rows ++ [{ id := st.nextId, title := "", author := "" }] :=
  ⟨rfl, rfl, rfl⟩

/-! ## C10: the wire type of POST /books/add requires an id field -/

/-- C10: a POST `/books/add` body whose JSON object has no `id` field is
rejected at decoding — before any storage call, so the store is unchanged —
because the serde-derived wire type for `Book` requires an integer `id`;
conversely any body that decodes (and thus reaches storage) is an object
that carried an `id` field. -/
theorem add_route_requires_id (st : Store) (fields : List (String × JsonValue))
    (h : ∀ f ∈ fields, f.1 ≠ "id") :
    decodeBook (JsonValue.obj fields) = none ∧
    add_book_route st (JsonValue.obj fields) =
      (Except.error StatusCode.unprocessableEntity, st) ∧
    (∀ body b, decodeBook body = some b →
      ∃ fs, body = JsonValue.obj fs ∧ (getField fs "id").isSome) := by
  have hid : getField fields "id" = none := by
    unfold getField
    rw [List.find?_eq_none.mpr]
    · rfl
    · intro f hf
      simpa using h f hf
  have hdec : decodeBook (JsonValue.obj fields) = none := by
    simp only [decodeBook, hid]
    rfl
  refine ⟨hdec, ?_, ?_⟩
  · unfold add_book_route
    rw [hdec]
  · intro body b hb
    cases body with
    | obj fs =>
        refine ⟨fs, rfl, ?_⟩
        cases hgf : getField fs "id" with
        | some v => rfl
        | none =>
            exfalso
            simp only [decodeBook, hgf] at hb
            exact Option.noConfusion hb
    | null => exact Option.noConfusion hb
    | bool v => exact Option.noConfusion hb
    | num n => exact Option.noConfusion hb
    | str s => exact Option.noConfusion hb
    | arr es => exact Option.noConfusion hb

/-- Witness for C10: a body carrying only title and author is rejected. -/
theorem add_route_requires_id_witness :
    decodeBook (JsonValue.obj
      [("title", JsonValue.str "x"), ("author", JsonValue.str "y")]) = none ∧
    add_book_route emptyStore (JsonValue.obj
      [("title", JsonValue.str "x"), ("author", JsonValue.str "y")]) =
      (Except.error StatusCode.unprocessableEntity, emptyStore) ∧
    (∀ body b, decodeBook body = some b →
      ∃ fs, body = JsonValue.obj fs ∧ (getField fs "id").isSome) :=
  add_route_requires_id emptyStore
    [("title", JsonValue.str "x"), ("author", JsonValue.str "y")]
    (by decide)
